import Mathlib

/-!
Verification development for the gear repository core:
- `src/utils/wasm-instrument/src/lib.rs` (gas/allowance metering injection),
- `src/core-backend/src/wasmtime/env.rs` (host execution environment),
- `src/pallets/gear/src/ext.rs` (lazy-pages external-state adapter).

Machine integers are embedded as `Nat` with explicit `% 2^64` / `% 2^32`
where Rust/wasm arithmetic wraps.
-/

namespace Instrument

/-- Two to the 64th, the modulus of u64 / wasm i64 arithmetic. -/
def u64Mod : Nat := 2 ^ 64

/-- Two to the 32nd, the modulus of u32 / wasm i32 arithmetic. -/
def u32Mod : Nat := 2 ^ 32

/-- Block types of structured wasm instructions; the injected code only uses
`NoResult` (`elements::BlockType::NoResult`). -/
inductive BlockType where
  | NoResult
deriving DecidableEq, Repr

/-- The subset of `parity_wasm::elements::Instruction` used by the injected
charging function and by the cost lookups in `inject`.  Integer immediates
carry their unsigned bit pattern. -/
inductive Instr where
  | GetGlobal (n : Nat)
  | SetGlobal (n : Nat)
  | GetLocal (n : Nat)
  | TeeLocal (n : Nat)
  | I64ExtendUI32
  | I64Const (v : Nat)
  | I32Const (v : Nat)
  | I64Add
  | I64Sub
  | I64LtU
  | If (bt : BlockType)
  | End
  | Call (k : Nat)
  | Unreachable
deriving DecidableEq, Repr

/-- State of the straight-line wasm evaluator used to give semantics to the
synthesized charging function: an operand stack of unsigned 64/32-bit values,
the function's locals, the module's globals (as a function from index to
value), and the trace of function indices called so far. -/
structure ChargeState where
  stack : List Nat
  locals : Nat → Nat
  globals : Nat → Nat
  calls : List Nat

/-- Result of evaluating an instruction sequence: normal completion, a trap
(`unreachable` executed), or `stuck` for ill-typed programs / fuel
exhaustion (never reached on the charging function). -/
inductive ExecResult where
  | done (s : ChargeState)
  | trap (s : ChargeState)
  | stuck

/-- Skip forward past the matching `End` of the innermost open block
(`d` counts additional nested blocks), returning the remaining suffix.
Used to give semantics to an `If` whose condition is false (the injected
ifs have no `Else`). -/
def skipToEnd : Nat → List Instr → List Instr
  | _, [] => []
  | 0, .End :: rest => rest
  | d + 1, .End :: rest => skipToEnd d rest
  | d, .If _ :: rest => skipToEnd (d + 1) rest
  | d, _ :: rest => skipToEnd d rest

theorem skipToEnd_length_le (d : Nat) (l : List Instr) :
    (skipToEnd d l).length ≤ l.length := by
  induction l generalizing d with
  | nil => simp [skipToEnd]
  | cons i rest ih =>
    cases i <;> cases d <;> simp only [skipToEnd, List.length_cons] <;>
      first
        | omega
        | exact Nat.le_succ_of_le (ih _)

/-- Fuel-indexed evaluator for the instruction subset.  Values on the stack
are unsigned bit patterns (`Nat`s below `2^64`); `I64Add`/`I64Sub` wrap
modulo `2^64`, `I64LtU` is unsigned comparison, `Call` records the callee
index (the injected trap imports take no arguments and return nothing),
`Unreachable` traps immediately. -/
def exec : Nat → List Instr → ChargeState → ExecResult
  | 0, _, _ => .stuck
  | _ + 1, [], s => .done s
  | fuel + 1, i :: rest, s =>
    match i, s.stack with
    | .GetGlobal n, st => exec fuel rest { s with stack := s.globals n :: st }
    | .SetGlobal n, v :: st =>
        exec fuel rest
          { s with stack := st, globals := fun m => if m = n then v else s.globals m }
    | .GetLocal n, st => exec fuel rest { s with stack := s.locals n :: st }
    | .TeeLocal n, v :: st =>
        exec fuel rest
          { s with stack := v :: st, locals := fun m => if m = n then v else s.locals m }
    | .I64ExtendUI32, v :: st => exec fuel rest { s with stack := v % u32Mod :: st }
    | .I64Const v, st => exec fuel rest { s with stack := v % u64Mod :: st }
    | .I32Const v, st => exec fuel rest { s with stack := v % u32Mod :: st }
    | .I64Add, b :: a :: st => exec fuel rest { s with stack := (a + b) % u64Mod :: st }
    | .I64Sub, b :: a :: st =>
        exec fuel rest { s with stack := (a + u64Mod - b % u64Mod) % u64Mod :: st }
    | .I64LtU, b :: a :: st =>
        exec fuel rest { s with stack := (if a < b then 1 else 0) :: st }
    | .If _, c :: st =>
        if c ≠ 0 then exec fuel rest { s with stack := st }
        else exec fuel (skipToEnd 0 rest) { s with stack := st }
    | .End, _ => exec fuel rest s
    | .Call k, _ => exec fuel rest { s with calls := s.calls ++ [k] }
    | .Unreachable, _ => .trap s
    | _, _ => .stuck

/-- The `elements` vector synthesized by `inject` (lib.rs lines 152-204):
the body of the charging function, with the placeholder immediate
`I64Const(i64::MAX)` that is later patched to the per-call overhead. -/
def gasChargeTemplate (gas_index allowance_index out_of_gas_index out_of_allowance_index : Nat) :
    List Instr :=
  [ .GetGlobal gas_index,
    .GetLocal 0,
    .I64ExtendUI32,
    .I64Const (2 ^ 63 - 1),
    .I64Add,
    .TeeLocal 1,
    .I64LtU,
    .If .NoResult,
    .Call out_of_gas_index,
    .Unreachable,
    .End,
    .GetGlobal gas_index,
    .GetLocal 1,
    .I64Sub,
    .SetGlobal gas_index,
    .GetGlobal allowance_index,
    .GetLocal 1,
    .I64LtU,
    .If .NoResult,
    .Call out_of_allowance_index,
    .Unreachable,
    .End,
    .GetGlobal allowance_index,
    .GetLocal 1,
    .I64Sub,
    .SetGlobal allowance_index,
    .End ]

/-- The patch loop of `inject` (lib.rs lines 251-257): every `I64Const`
immediate in the charging-function body is replaced by the precomputed
per-call overhead `cost`. -/
def patchCost (cost : Nat) : List Instr → List Instr :=
  List.map fun i =>
    match i with
    | .I64Const _ => .I64Const cost
    | other => other

/-- Initial state of one invocation of the charging function: operand `c`
in local 0, the `i64` scratch local 1 zero-initialized, the module's
globals as given, no calls made yet. -/
def initChargeState (c : Nat) (globals0 : Nat → Nat) : ChargeState :=
  { stack := []
    locals := fun m => if m = 0 then c else 0
    globals := globals0
    calls := [] }

/-- C1: the synthesized charging function, invoked with 32-bit operand `c`,
computes `total = zero_extend(c) + per_call_overhead`; if `gas < total` it
calls the out-of-gas import and traps via `unreachable` with both counters
untouched; otherwise it performs `gas -= total`, then runs the same
check-then-subtract against the allowance counter with the out-of-allowance
trap import; gas is checked before allowance, and a counter is decremented only
after its own check succeeded, so neither counter is ever driven negative
(its new value is the exact difference, with no wraparound). -/
theorem gas_charge_function_correct
    (gi oog ooa cost c g a : Nat) (globals0 : Nat → Nat)
    (hg : globals0 gi = g) (ha : globals0 (gi + 1) = a)
    (hc : c < u32Mod) (hcost : cost ≤ u64Mod - u32Mod)
    (hgb : g < u64Mod) (hab : a < u64Mod) :
    (g < c + cost →
      ∃ s, exec 30 (patchCost cost (gasChargeTemplate gi (gi + 1) oog ooa))
            (initChargeState c globals0) = .trap s ∧
        s.calls = [oog] ∧ s.globals gi = g ∧ s.globals (gi + 1) = a) ∧
    (c + cost ≤ g → a < c + cost →
      ∃ s, exec 30 (patchCost cost (gasChargeTemplate gi (gi + 1) oog ooa))
            (initChargeState c globals0) = .trap s ∧
        s.calls = [ooa] ∧ s.globals gi = g - (c + cost) ∧ s.globals (gi + 1) = a) ∧
    (c + cost ≤ g → c + cost ≤ a →
      ∃ s, exec 30 (patchCost cost (gasChargeTemplate gi (gi + 1) oog ooa))
            (initChargeState c globals0) = .done s ∧
        s.calls = [] ∧ s.globals gi = g - (c + cost) ∧
        s.globals (gi + 1) = a - (c + cost)) := by
  have hmodc : c % u32Mod = c := Nat.mod_eq_of_lt hc
  have htot : (c + cost) % u64Mod = c + cost := by
    have : c + cost < u64Mod := by
      simp only [u64Mod, u32Mod] at *; omega
    exact Nat.mod_eq_of_lt this
  have hmodcost : cost % u64Mod = cost := by
    have : cost < u64Mod := by simp only [u64Mod, u32Mod] at *; omega
    exact Nat.mod_eq_of_lt this
  have hne : gi + 1 ≠ gi := Nat.succ_ne_self gi
  refine ⟨?_, ?_, ?_⟩
  · intro hlt
    simp only [patchCost, gasChargeTemplate, List.map, initChargeState, exec,
      hmodc, hmodcost, htot, hg, hlt, if_true, ite_true, ne_eq,
      List.nil_append, List.cons_append]
    exact ⟨_, rfl, rfl, hg, ha⟩
  · intro hge hlt
    have hnlt : ¬ g < c + cost := Nat.not_lt.mpr hge
    have hsub : (g + u64Mod - (c + cost)) % u64Mod = g - (c + cost) := by
      simp only [u64Mod, u32Mod] at *; omega
    simp only [patchCost, gasChargeTemplate, List.map, initChargeState, exec,
      hmodc, hmodcost, htot, hg, hnlt, hsub, hne, ha, hlt, skipToEnd,
      if_true, ite_true, if_false, ite_false, ne_eq, not_false_iff,
      List.nil_append, List.cons_append]
    refine ⟨_, rfl, rfl, ?_, ?_⟩ <;> simp [hne, hg, ha]
  · intro hge hage
    have hnlt : ¬ g < c + cost := Nat.not_lt.mpr hge
    have hnlta : ¬ a < c + cost := Nat.not_lt.mpr hage
    have hsub : (g + u64Mod - (c + cost)) % u64Mod = g - (c + cost) := by
      simp only [u64Mod, u32Mod] at *; omega
    have hsuba : (a + u64Mod - (c + cost)) % u64Mod = a - (c + cost) := by
      simp only [u64Mod, u32Mod] at *; omega
    simp only [patchCost, gasChargeTemplate, List.map, initChargeState, exec,
      hmodc, hmodcost, htot, hg, hnlt, hnlta, hsub, hsuba, hne, ha, skipToEnd,
      if_true, ite_true, if_false, ite_false, ne_eq, not_false_iff,
      List.nil_append, List.cons_append]
    refine ⟨_, rfl, rfl, ?_, ?_⟩ <;> simp [hne, hg, ha]

/-- Witness for C1 at gas index 0, import indices 7/8, overhead 2, operand 1,
gas 5, allowance 9: the charge succeeds and leaves gas 2, allowance 6. -/
theorem gas_charge_function_correct_witness :
    ∃ s, exec 30 (patchCost 2 (gasChargeTemplate 0 (0 + 1) 7 8))
          (initChargeState 1 (fun n => if n = 0 then 5 else if n = 1 then 9 else 0)) =
            .done s ∧
      s.calls = [] ∧ s.globals 0 = 5 - (1 + 2) ∧ s.globals (0 + 1) = 9 - (1 + 2) :=
  (gas_charge_function_correct 0 7 8 2 1 5 9
      (fun n => if n = 0 then 5 else if n = 1 then 9 else 0)
      rfl rfl (by decide) (by decide) (by decide) (by decide)).2.2
    (by decide) (by decide)

/-- Wasm value types (`parity_wasm::elements::ValueType`), restricted to the
numeric types `inject` uses. -/
inductive ValueType where
  | i32
  | i64
deriving DecidableEq, Repr

/-- External reference kind of an import entry
(`parity_wasm::elements::External`). -/
inductive ExternalRef where
  | Func (sig : Nat)
  | Global
  | Memory
  | Table
deriving DecidableEq, Repr

/-- One entry of the import section: source module name, field name, and
the kind of entity imported. -/
structure ImportEntry where
  module : String
  field : String
  ref : ExternalRef
deriving DecidableEq, Repr

/-- Internal reference of an export entry
(`parity_wasm::elements::Internal`). -/
inductive ExportInternal where
  | Func (n : Nat)
  | Global (n : Nat)
  | Memory (n : Nat)
  | Table (n : Nat)
deriving DecidableEq, Repr

/-- One entry of the export section: exported field name and what it
refers to. -/
structure ExportEntry where
  field : String
  internal : ExportInternal
deriving DecidableEq, Repr

/-- A defined global: value type, mutability, and init expression. -/
structure GlobalEntry where
  ty : ValueType
  isMutable : Bool
  init : Instr
deriving DecidableEq, Repr

/-- A defined function: parameter types, declared locals
(count, type), and body instructions. -/
structure FuncBody where
  params : List ValueType
  locals : List (Nat × ValueType)
  body : List Instr
deriving DecidableEq, Repr

/-- Shallow embedding of `parity_wasm::elements::Module`, restricted to the
sections `inject` reads or writes.  `importSection`/`exportSection` are
`Option`s because `parity_wasm` returns `Option<&Section>`. -/
structure WModule where
  importSection : Option (List ImportEntry)
  exportSection : Option (List ExportEntry)
  numTypes : Nat
  funcBodies : List FuncBody
  globalsDefined : List GlobalEntry
deriving DecidableEq, Repr

/-- `module.import_count(ImportCountType::Function)`: the number of
function imports. -/
def WModule.import_count_func (m : WModule) : Nat :=
  (m.importSection.getD []).countP fun e =>
    match e.ref with
    | .Func _ => true
    | _ => false

/-- `module.functions_space()`: function imports plus defined functions. -/
def WModule.functions_space (m : WModule) : Nat :=
  m.import_count_func + m.funcBodies.length

/-- `module.globals_space()`: global imports plus defined globals. -/
def WModule.globals_space (m : WModule) : Nat :=
  (m.importSection.getD []).countP (fun e => e.ref = .Global) + m.globalsDefined.length

/-- Builder `push_signature`: appends a type, returning its index. -/
def pushSignature (m : WModule) : WModule × Nat :=
  ({ m with numTypes := m.numTypes + 1 }, m.numTypes)

/-- Builder `push_import`: appends an import entry. -/
def pushImport (m : WModule) (e : ImportEntry) : WModule :=
  { m with importSection := some ((m.importSection.getD []) ++ [e]) }

/-- Builder `push_global`: appends a defined global. -/
def pushGlobal (m : WModule) (g : GlobalEntry) : WModule :=
  { m with globalsDefined := m.globalsDefined ++ [g] }

/-- Builder `push_export`: appends an export entry. -/
def pushExport (m : WModule) (e : ExportEntry) : WModule :=
  { m with exportSection := some ((m.exportSection.getD []) ++ [e]) }

/-- Builder `push_function`: appends a defined function (and its type). -/
def pushFunction (m : WModule) (f : FuncBody) : WModule :=
  { m with funcBodies := m.funcBodies ++ [f], numTypes := m.numTypes + 1 }

/-- Modelled from the spec: the repository's `syscalls.rs` (the
`SysCallName` enum) is not under `src/`; per the spec the two trap imports
are named `out_of_gas` and `out_of_allowance`.
`SysCallName::OutOfGas.to_str()`. -/
def outOfGasStr : String := "out_of_gas"

/-- Modelled from the spec: `SysCallName::OutOfAllowance.to_str()`. -/
def outOfAllowanceStr : String := "out_of_allowance"

/-- `GLOBAL_NAME_GAS` (lib.rs line 43). -/
def GLOBAL_NAME_GAS : String := "gear_gas"

/-- `GLOBAL_NAME_ALLOWANCE` (lib.rs line 44). -/
def GLOBAL_NAME_ALLOWANCE : String := "gear_allowance"

/-- The gas-metering cost rules consumed by `inject`
(`wasm_instrument::gas_metering::Rules`): per-instruction cost and the
per-local cost of a call, both `u32`-valued in the source, hence the
bound fields. -/
structure Rules where
  instructionCost : Instr → Option Nat
  callPerLocalCost : Nat
  instructionCost_lt : ∀ i c, instructionCost i = some c → c < u32Mod
  callPerLocalCost_lt : callPerLocalCost < u32Mod

/-- `u64::checked_add`. -/
def checked_add (a b : Nat) : Option Nat :=
  if a + b < u64Mod then some (a + b) else none

/-- The stateful `filter` of lib.rs lines 209-221: `If` sets the
"inside a block" flag and is kept; `End` clears it and is dropped;
everything else is kept exactly when the flag is clear. -/
def keepFilter : Bool → List Instr → List Instr
  | _, [] => []
  | _, .If bt :: rest => .If bt :: keepFilter true rest
  | _, .End :: rest => keepFilter false rest
  | bof, i :: rest => if bof then keepFilter bof rest else i :: keepFilter bof rest

/-- The `try_fold` of lib.rs lines 222-226 over the filtered charging
function body: looks up each instruction's cost and accumulates with
`checked_add`; `none` on a failed lookup or a `u64` overflow. -/
def costBlocks (rules : Rules) (l : List Instr) : Option Nat :=
  (keepFilter false l).foldl
    (fun acc i => acc.bind fun cost =>
      (rules.instructionCost i).bind fun c => checked_add cost c)
    (some 0)

/-- First pre-check of `inject` (lib.rs lines 56-68): the module
already imports one of the trap functions from the gas module. -/
def importPrecheck (m : WModule) (gas_module_name : String) : Bool :=
  (m.importSection.map fun entries =>
    entries.any fun e =>
      e.module == gas_module_name &&
        (e.field == outOfGasStr || e.field == outOfAllowanceStr)).getD false

/-- Second pre-check of `inject` (lib.rs lines 70-80): the module already
exports one of the reserved counter names. -/
def exportPrecheck (m : WModule) : Bool :=
  (m.exportSection.map fun entries =>
    entries.any fun e =>
      e.field == GLOBAL_NAME_ALLOWANCE || e.field == GLOBAL_NAME_GAS).getD false

/-- `inject` (lib.rs lines 51-276).  The final
`gas_metering::post_injection_handler` belongs to the external
`wasm_instrument` crate and is passed in as `post` (receiving the built
module, `gas_charge_index` and `out_of_gas_index`). -/
def inject (m : WModule) (rules : Rules) (gas_module_name : String)
    (post : WModule → Nat → Nat → Except WModule WModule) :
    Except WModule WModule :=
  if importPrecheck m gas_module_name then .error m
  else if exportPrecheck m then .error m
  else
    let (mA, import_sig) := pushSignature m
    let mB := pushImport mA ⟨gas_module_name, outOfGasStr, .Func import_sig⟩
    let mC := pushImport mB ⟨gas_module_name, outOfAllowanceStr, .Func import_sig⟩
    let import_count := mC.import_count_func
    let out_of_gas_index := import_count - 2
    let out_of_allowance_index := import_count - 1
    let gas_charge_index := mC.functions_space
    let gas_index := mC.globals_space
    let allowance_index := gas_index + 1
    let mD := pushGlobal mC ⟨.i64, true, .I64Const 0⟩
    let mE := pushExport mD ⟨GLOBAL_NAME_GAS, .Global gas_index⟩
    let mF := pushGlobal mE ⟨.i64, true, .I64Const 0⟩
    let mG := pushExport mF ⟨GLOBAL_NAME_ALLOWANCE, .Global allowance_index⟩
    let elements := gasChargeTemplate gas_index allowance_index
      out_of_gas_index out_of_allowance_index
    match costBlocks rules elements with
    | none => .error mG
    | some cost_blocks =>
      match rules.instructionCost (.I32Const 0) with
      | none => .error mG
      | some cost_push_arg =>
        match rules.instructionCost (.Call 0) with
        | none => .error mG
        | some cost_call =>
          let cost_local_var := rules.callPerLocalCost
          let cost := (cost_push_arg + cost_call + cost_local_var + cost_blocks) % u64Mod
          if u64Mod - u32Mod < cost then .error mG
          else
            let mH := pushFunction mG ⟨[.i32], [(1, .i64)], patchCost cost elements⟩
            post mH gas_charge_index out_of_gas_index

/-- A concrete rule set (every instruction costs 1, per-local cost 1),
used to instantiate theorems at concrete inputs. -/
def constRules : Rules where
  instructionCost := fun _ => some 1
  callPerLocalCost := 1
  instructionCost_lt := by
    intro i c h
    injection h with h
    rw [← h]
    decide
  callPerLocalCost_lt := by decide

/-- C2: a module that already imports either trap function from the gas
namespace, or already exports a global under either reserved counter name,
is rejected by `inject`, and the error payload is the input module itself,
unchanged. -/
theorem inject_rejects_already_instrumented
    (m : WModule) (rules : Rules) (ns : String)
    (post : WModule → Nat → Nat → Except WModule WModule)
    (h : (∃ entries, m.importSection = some entries ∧
            ∃ e ∈ entries, (∃ sig, e.ref = .Func sig) ∧ e.module = ns ∧
              (e.field = outOfGasStr ∨ e.field = outOfAllowanceStr)) ∨
         (∃ entries, m.exportSection = some entries ∧
            ∃ e ∈ entries, (∃ gidx, e.internal = .Global gidx) ∧
              (e.field = GLOBAL_NAME_ALLOWANCE ∨ e.field = GLOBAL_NAME_GAS))) :
    inject m rules ns post = .error m := by
  rcases h with ⟨entries, hsec, e, he, _hfunc, hmod, hf⟩ |
    ⟨entries, hsec, e, he, _hglob, hf⟩
  · have h1 : importPrecheck m ns = true := by
      simp only [importPrecheck, hsec, Option.map_some', Option.getD_some,
        List.any_eq_true, Bool.and_eq_true, Bool.or_eq_true, beq_iff_eq]
      exact ⟨e, he, hmod, hf⟩
    simp [inject, h1]
  · by_cases h1 : importPrecheck m ns
    · simp [inject, h1]
    · have h2 : exportPrecheck m = true := by
        simp only [exportPrecheck, hsec, Option.map_some', Option.getD_some,
          List.any_eq_true, Bool.or_eq_true, beq_iff_eq]
        exact ⟨e, he, hf⟩
      simp [inject, h1, h2]

/-- Witness for C2: a module importing `out_of_gas` from `"env"` is
returned unchanged as the error payload. -/
theorem inject_rejects_already_instrumented_witness :
    inject ⟨some [⟨"env", "out_of_gas", .Func 0⟩], none, 1, [], []⟩ constRules "env"
        (fun mm _ _ => .ok mm) =
      .error ⟨some [⟨"env", "out_of_gas", .Func 0⟩], none, 1, [], []⟩ :=
  inject_rejects_already_instrumented _ _ _ _
    (.inl ⟨_, rfl, _, List.mem_singleton.mpr rfl, ⟨0, rfl⟩, rfl, .inl rfl⟩)

/-- The cost accumulator of `costBlocks` never recovers from `none`. -/
theorem costFold_none (rules : Rules) (l : List Instr) :
    l.foldl
      (fun acc i => acc.bind fun cost =>
        (rules.instructionCost i).bind fun c => checked_add cost c)
      none = none := by
  induction l with
  | nil => rfl
  | cons i rest ih => simpa using ih

/-- Each accumulation step adds a `u32`-bounded cost, so the result of the
fold is bounded by the accumulator plus `length * (2^32 - 1)`. -/
theorem costFold_le (rules : Rules) (l : List Instr) :
    ∀ acc cb : Nat,
      l.foldl
        (fun acc i => acc.bind fun cost =>
          (rules.instructionCost i).bind fun c => checked_add cost c)
        (some acc) = some cb →
      cb ≤ acc + l.length * (u32Mod - 1) := by
  induction l with
  | nil =>
    intro acc cb h
    simp only [List.foldl_nil, Option.some.injEq] at h
    simp [← h]
  | cons i rest ih =>
    intro acc cb h
    simp only [List.foldl_cons, Option.some_bind] at h
    cases hic : rules.instructionCost i with
    | none =>
      rw [hic] at h
      simp only [Option.none_bind] at h
      rw [costFold_none] at h
      exact absurd h (by simp)
    | some c =>
      rw [hic] at h
      simp only [Option.some_bind] at h
      have hca : checked_add acc c = if acc + c < u64Mod then some (acc + c) else none := rfl
      rw [hca] at h
      split at h
      · have hc : c < u32Mod := rules.instructionCost_lt i c hic
        have := ih (acc + c) cb h
        rw [List.length_cons, Nat.succ_mul]
        omega
      · rw [costFold_none] at h
        exact absurd h (by simp)

/-- The result of `costBlocks` is bounded by the filtered length times the
largest `u32` cost. -/
theorem costBlocks_le (rules : Rules) (l : List Instr) (cb : Nat)
    (h : costBlocks rules l = some cb) :
    cb ≤ (keepFilter false l).length * (u32Mod - 1) := by
  simpa using costFold_le rules (keepFilter false l) 0 cb h

/-- The stateful filter keeps exactly 20 of the 27 instructions of the
charging-function template (everything outside the two `If` bodies, plus
the `If`s themselves). -/
theorem keepFilter_template_length (a b c d : Nat) :
    (keepFilter false (gasChargeTemplate a b c d)).length = 20 := by
  simp [gasChargeTemplate, keepFilter]

/-- A function import does not change the imported-globals count. -/
theorem globals_space_pushImport_func (m : WModule) (mod fld : String) (sig : Nat) :
    (pushImport m ⟨mod, fld, .Func sig⟩).globals_space = m.globals_space := by
  simp [pushImport, WModule.globals_space, List.countP_append, List.countP_cons]

/-- A function import increments the function-import count. -/
theorem import_count_func_pushImport (m : WModule) (mod fld : String) (sig : Nat) :
    (pushImport m ⟨mod, fld, .Func sig⟩).import_count_func = m.import_count_func + 1 := by
  simp [pushImport, WModule.import_count_func, List.countP_append, List.countP_cons]

/-- A function import increments the function space. -/
theorem functions_space_pushImport (m : WModule) (mod fld : String) (sig : Nat) :
    (pushImport m ⟨mod, fld, .Func sig⟩).functions_space = m.functions_space + 1 := by
  rw [WModule.functions_space, WModule.functions_space, import_count_func_pushImport]
  have hfb : (pushImport m ⟨mod, fld, .Func sig⟩).funcBodies = m.funcBodies := rfl
  rw [hfb]
  omega

/-- Changing only `numTypes` leaves the function-import count alone. -/
theorem import_count_func_numTypes (m : WModule) (x : Nat) :
    ({ m with numTypes := x } : WModule).import_count_func = m.import_count_func := rfl

/-- Changing only `numTypes` leaves the globals space alone. -/
theorem globals_space_numTypes (m : WModule) (x : Nat) :
    ({ m with numTypes := x } : WModule).globals_space = m.globals_space := rfl

/-- Changing only `numTypes` leaves the function space alone. -/
theorem functions_space_numTypes (m : WModule) (x : Nat) :
    ({ m with numTypes := x } : WModule).functions_space = m.functions_space := rfl

/-- C3: past the double-instrumentation pre-checks, `inject` aborts with an
error when any cost lookup fails (for the filtered charging-function body,
for `I32Const`, or for `Call`), and the precomputed per-call overhead
(push-arg cost + call cost + per-local cost + charging-function block cost,
summed in unsigned 64-bit arithmetic) is tested against
`u64::MAX - u32::MAX`: above the bound injection errors, at or below it the
module reaches the post-injection handler. -/
theorem inject_cost_gate (m : WModule) (rules : Rules) (ns : String)
    (post : WModule → Nat → Nat → Except WModule WModule)
    (hp1 : importPrecheck m ns = false) (hp2 : exportPrecheck m = false) :
    ((costBlocks rules (gasChargeTemplate m.globals_space (m.globals_space + 1)
        m.import_count_func (m.import_count_func + 1)) = none ∨
      rules.instructionCost (.I32Const 0) = none ∨
      rules.instructionCost (.Call 0) = none) →
      ∃ m', inject m rules ns post = .error m') ∧
    (∀ cb cpa cc,
      costBlocks rules (gasChargeTemplate m.globals_space (m.globals_space + 1)
        m.import_count_func (m.import_count_func + 1)) = some cb →
      rules.instructionCost (.I32Const 0) = some cpa →
      rules.instructionCost (.Call 0) = some cc →
      (u64Mod - u32Mod < cpa + cc + rules.callPerLocalCost + cb →
        ∃ m', inject m rules ns post = .error m') ∧
      (cpa + cc + rules.callPerLocalCost + cb ≤ u64Mod - u32Mod →
        ∃ mH, inject m rules ns post =
          post mH (m.functions_space + 2) m.import_count_func)) := by
  have hadd : ∀ x : Nat, x + 1 + 1 = x + 2 := fun x => by omega
  have hsub2 : ∀ x : Nat, x + 2 - 2 = x := fun x => by omega
  have h21 : ∀ x : Nat, x + 2 - 1 = x + 1 := fun x => by omega
  simp only [inject, hp1, hp2, Bool.false_eq_true, if_false, pushSignature,
    globals_space_pushImport_func, import_count_func_pushImport, functions_space_pushImport,
    globals_space_numTypes, import_count_func_numTypes, functions_space_numTypes,
    hadd, hsub2, h21]
  constructor
  · rintro (h | h | h)
    · rw [h]
      exact ⟨_, rfl⟩
    · cases hcb : costBlocks rules (gasChargeTemplate m.globals_space (m.globals_space + 1)
          m.import_count_func (m.import_count_func + 1)) with
      | none => exact ⟨_, rfl⟩
      | some cb => rw [h]; exact ⟨_, rfl⟩
    · cases hcb : costBlocks rules (gasChargeTemplate m.globals_space (m.globals_space + 1)
          m.import_count_func (m.import_count_func + 1)) with
      | none => exact ⟨_, rfl⟩
      | some cb =>
        cases hcpa : rules.instructionCost (.I32Const 0) with
        | none => exact ⟨_, rfl⟩
        | some cpa => rw [h]; exact ⟨_, rfl⟩
  · intro cb cpa cc hcb hcpa hcc
    have hcb_le : cb ≤ 20 * (u32Mod - 1) := by
      have := costBlocks_le rules _ cb hcb
      rwa [keepFilter_template_length] at this
    have hcpa_lt : cpa < u32Mod := rules.instructionCost_lt _ _ hcpa
    have hcc_lt : cc < u32Mod := rules.instructionCost_lt _ _ hcc
    have hclv_lt : rules.callPerLocalCost < u32Mod := rules.callPerLocalCost_lt
    constructor
    · intro hover
      exfalso
      simp only [u64Mod, u32Mod] at hcb_le hcpa_lt hcc_lt hclv_lt hover
      omega
    · intro hle
      rw [hcb, hcpa, hcc]
      have hmod : (cpa + cc + rules.callPerLocalCost + cb) % u64Mod =
          cpa + cc + rules.callPerLocalCost + cb := by
        apply Nat.mod_eq_of_lt
        simp only [u64Mod, u32Mod] at *
        omega
      simp only [hmod]
      rw [if_neg (Nat.not_lt.mpr hle)]
      exact ⟨_, rfl⟩


/-- Witness for C3 on the empty module with unit costs: the sum
`1 + 1 + 1 + 20` is far below the bound, so injection reaches the
post-injection handler. -/
theorem inject_cost_gate_witness :
    ((costBlocks constRules (gasChargeTemplate 0 (0 + 1) 0 (0 + 1)) = none ∨
      constRules.instructionCost (.I32Const 0) = none ∨
      constRules.instructionCost (.Call 0) = none) →
      ∃ m', inject ⟨none, none, 0, [], []⟩ constRules "env"
        (fun mm _ _ => .ok mm) = .error m') ∧
    (∀ cb cpa cc,
      costBlocks constRules (gasChargeTemplate 0 (0 + 1) 0 (0 + 1)) = some cb →
      constRules.instructionCost (.I32Const 0) = some cpa →
      constRules.instructionCost (.Call 0) = some cc →
      (u64Mod - u32Mod < cpa + cc + constRules.callPerLocalCost + cb →
        ∃ m', inject ⟨none, none, 0, [], []⟩ constRules "env"
          (fun mm _ _ => .ok mm) = .error m') ∧
      (cpa + cc + constRules.callPerLocalCost + cb ≤ u64Mod - u32Mod →
        ∃ mH, inject ⟨none, none, 0, [], []⟩ constRules "env"
          (fun mm _ _ => .ok mm) = (fun mm _ _ => Except.ok mm) mH (0 + 2) 0)) :=
  inject_cost_gate ⟨none, none, 0, [], []⟩ constRules "env" (fun mm _ _ => .ok mm) rfl rfl

end Instrument

namespace Backend

/-- Wasm values passed to/from exported functions. -/
inductive Val where
  | i32 (n : Nat)
  | i64 (n : Nat)
deriving DecidableEq, Repr

/-- `wasmtime::Trap`, as produced from a diagnostic string by
`Trap::new`. -/
structure WTrap where
  msg : String
deriving DecidableEq, Repr

/-- `Trap::new`. -/
def WTrap.new (s : String) : WTrap := ⟨s⟩

/-- An error reported from `setup_and_run` / `run_inner`: either an
`anyhow`-level reported error message or a propagated engine trap. -/
inductive RunError where
  | reported (msg : String)
  | trapped (t : WTrap)
deriving DecidableEq, Repr

/-- `wrap1` (env.rs lines 248-250): adapt a host function returning
`Result<R, &'static str>` into one returning `Result<R, Trap>` by turning
the diagnostic string into a trap. -/
def wrap1 {T R : Type} (func : T → Except String R) : T → Except WTrap R :=
  fun a => (func a).mapError WTrap.new

/-- `wrap2` (env.rs lines 252-256). -/
def wrap2 {T0 T1 R : Type} (func : T0 → T1 → Except String R) :
    T0 → T1 → Except WTrap R :=
  fun a b => (func a b).mapError WTrap.new

/-- `wrap3` (env.rs lines 258-262). -/
def wrap3 {T0 T1 T2 R : Type} (func : T0 → T1 → T2 → Except String R) :
    T0 → T1 → T2 → Except WTrap R :=
  fun a b c => (func a b c).mapError WTrap.new

/-- `wrap4` (env.rs lines 264-268). -/
def wrap4 {T0 T1 T2 T3 R : Type} (func : T0 → T1 → T2 → T3 → Except String R) :
    T0 → T1 → T2 → T3 → Except WTrap R :=
  fun a b c d => (func a b c d).mapError WTrap.new

/-- `wrap5` (env.rs lines 270-274). -/
def wrap5 {T0 T1 T2 T3 T4 R : Type}
    (func : T0 → T1 → T2 → T3 → T4 → Except String R) :
    T0 → T1 → T2 → T3 → T4 → Except WTrap R :=
  fun a b c d e => (func a b c d e).mapError WTrap.new

/-- The keys of the host-function table built by `Environment::new`
(env.rs lines 34-50), in registration order. -/
def envFuncNames : List String :=
  ["alloc", "free", "gas", "gr_commit", "gr_charge", "gr_debug", "gr_init",
   "gr_msg_id", "gr_push", "gr_push_reply", "gr_read", "gr_reply",
   "gr_reply_to", "gr_send", "gr_size", "gr_source", "gr_value"]

/-- One import of the module under execution: source module name and
(optional) field name, as `wasmtime`'s `ImportType` exposes them. -/
structure MImport where
  module : String
  name : Option String
deriving DecidableEq, Repr

/-- The view of the parsed module `run_inner` needs: its imports. -/
structure ModuleW where
  imports : List MImport
deriving DecidableEq, Repr

/-- An extern supplied to instantiation: the provided memory object or a
host function from the table, identified by its key. -/
inductive ExternW where
  | memory
  | func (name : String)
deriving DecidableEq, Repr

/-- An instantiated module, parameterized by the external-state type `E`:
its exported functions, each mapping arguments and the current external
state (read through the `LaterExt` cell) to a result-or-trap and the
updated external state. -/
structure Instance (E : Type) where
  getFunc : String → Option (List Val → E → Except WTrap (List Val) × E)

/-- The external engine operations `setup_and_run`/`run_inner` delegate to:
parsing a binary (`Module::new`), instantiation (`Instance::new`), and
applying the initial memory pages (`memory.set_pages`). -/
structure EngineOps (E : Type) where
  parse : List Nat → Option (ModuleW)
  instantiate : ModuleW → List ExternW → Except String (Instance E)
  setPages : Except String Unit

/-- Observable engine effects of one `setup_and_run` call, used to state
"before instantiation" / "execution never begins" properties. -/
inductive Event where
  | instanceCreated
  | pagesApplied
  | entryInvoked (name : String) (args : List Val)
deriving DecidableEq, Repr

/-- First pass of `run_inner` (env.rs lines 112-121): every import must
come from module `"env"`; collecting into a `Result` makes the first
offender abort.  A successful pass pairs each import name with an empty
extern slot. -/
def collectEnvSlots : List MImport →
    Except String (List (Option String × Option ExternW))
  | [] => .ok []
  | imp :: rest =>
    if imp.module ≠ "env" then .error "Non-env imports are not supported"
    else (collectEnvSlots rest).map fun slots => (imp.name, none) :: slots

/-- Second pass of `run_inner` (env.rs lines 123-138): a named slot is
filled with the memory object for `"memory"`, with the host function for a
table key, and is left unfilled (`continue`) otherwise. -/
def fillSlot (funcs : List String) (slot : Option String × Option ExternW) :
    Option String × Option ExternW :=
  match slot.1 with
  | some nm =>
      if nm = "memory" then (slot.1, some ExternW.memory)
      else if funcs.contains nm then (slot.1, some (ExternW.func nm))
      else slot
  | none => slot

/-- Third pass of `run_inner` (env.rs lines 140-145): any still-unfilled
slot is a `Missing import` error. -/
def collectExterns : List (Option String × Option ExternW) →
    Except String (List ExternW)
  | [] => .ok []
  | slot :: rest =>
    match slot.2 with
    | some ext => (collectExterns rest).map fun exts => ext :: exts
    | none => .error "Missing import"

/-- Import resolution of `run_inner` (env.rs lines 112-145): the three
passes composed. -/
def resolveImports (funcs : List String) (imports : List MImport) :
    Except String (List ExternW) :=
  (collectEnvSlots imports).bind fun slots =>
    collectExterns (slots.map (fillSlot funcs))

/-- `run_inner` (env.rs lines 105-155): resolve imports, instantiate,
apply initial memory pages, then run the continuation on the instance.
The external state (the `LaterExt` cell's contents for the duration of
the call) is threaded through; the event list records which engine
effects happened. -/
def run_inner {E : Type} (ops : EngineOps E) (funcs : List String)
    (m : ModuleW) (ext : E)
    (k : Instance E → E → Except RunError Unit × E × List Event) :
    Except RunError Unit × E × List Event :=
  match resolveImports funcs m.imports with
  | .error msg => (.error (.reported msg), ext, [])
  | .ok externs =>
    match ops.instantiate m externs with
    | .error msg => (.error (.reported msg), ext, [])
    | .ok inst =>
      match ops.setPages with
      | .error msg =>
          (.error (.reported ("Can't set module memory: " ++ msg)), ext,
            [.instanceCreated])
      | .ok _ =>
        let res := k inst ext
        (res.1, res.2.1, [.instanceCreated, .pagesApplied] ++ res.2.2)

/-- The closure `setup_and_run` passes to `run_inner` (env.rs lines
74-82): look up the export `entry_point`; a missing export is an
`anyhow` reported error; otherwise call it with no arguments, discarding
the (empty) results on success and propagating a trap. -/
def entryClosure {E : Type} (entry_point : String) (inst : Instance E)
    (ext : E) : Except RunError Unit × E × List Event :=
  match inst.getFunc entry_point with
  | none =>
      (.error (.reported ("failed to find `" ++ entry_point ++ "` function export")),
        ext, [])
  | some f =>
    match f [] ext with
    | (.ok _, ext2) => (.ok (), ext2, [.entryInvoked entry_point []])
    | (.error t, ext2) => (.error (.trapped t), ext2, [.entryInvoked entry_point []])

/-- Outcome of one `setup_and_run` call: either the Rust code panicked
(`.expect` / `panic!`, aborting without returning), or it returned the
pair `(result, ext)`. -/
inductive SetupOutcome (E : Type) where
  | panicked (msg : String)
  | completed (result : Except RunError Unit) (ext : E)

/-- `setup_and_run` (env.rs lines 62-87): parse the binary — where an
invalid binary makes the `.expect("Error creating module")` panic — then
bind `ext` into the deferred cell, run `run_inner` with the entry-point
closure, unset the cell, and return the result paired with the external
state.  The second component of the returned triple is the final contents
of the `LaterExt` cell, the third the engine events. -/
def setup_and_run {E : Type} (ops : EngineOps E) (funcs : List String)
    (ext : E) (binary : List Nat) (entry_point : String) :
    SetupOutcome E × Option E × List Event :=
  match ops.parse binary with
  | none => (.panicked "Error creating module", none, [])
  | some m =>
    let res := run_inner ops funcs m ext (entryClosure entry_point)
    (.completed res.1 res.2.1, none, res.2.2)

/-- A non-env import anywhere makes the first pass fail. -/
theorem collectEnvSlots_error (l : List MImport) (imp : MImport)
    (h1 : imp ∈ l) (h2 : imp.module ≠ "env") :
    collectEnvSlots l = .error "Non-env imports are not supported" := by
  induction l with
  | nil => cases h1
  | cons a rest ih =>
    rw [collectEnvSlots]
    by_cases ha : a.module ≠ "env"
    · simp [ha]
    · rcases List.mem_cons.mp h1 with rfl | hmem
      · exact absurd h2 ha
      · simp only [ha, if_false, ite_false]
        rw [ih hmem]
        rfl

/-- If every import comes from `"env"`, the first pass succeeds with one
empty slot per import. -/
theorem collectEnvSlots_ok (l : List MImport)
    (h : ∀ imp ∈ l, imp.module = "env") :
    collectEnvSlots l = .ok (l.map fun imp => (imp.name, (none : Option ExternW))) := by
  induction l with
  | nil => rfl
  | cons a rest ih =>
    rw [collectEnvSlots]
    have ha : ¬ a.module ≠ "env" := by simp [h a (List.mem_cons_self a rest)]
    simp only [ha, ite_false, if_false]
    rw [ih fun imp hm => h imp (List.mem_cons_of_mem a hm)]
    rfl

/-- A still-unfilled slot anywhere makes the third pass fail. -/
theorem collectExterns_error (slots : List (Option String × Option ExternW))
    (s : Option String × Option ExternW) (h1 : s ∈ slots) (h2 : s.2 = none) :
    collectExterns slots = .error "Missing import" := by
  induction slots with
  | nil => cases h1
  | cons a rest ih =>
    rw [collectExterns]
    rcases List.mem_cons.mp h1 with rfl | hmem
    · rw [h2]
    · cases ha : a.2 with
      | none => rfl
      | some e => rw [ih hmem]; rfl

/-- If every slot is filled, the third pass succeeds. -/
theorem collectExterns_ok (slots : List (Option String × Option ExternW))
    (h : ∀ s ∈ slots, s.2 ≠ none) :
    ∃ ex, collectExterns slots = .ok ex := by
  induction slots with
  | nil => exact ⟨[], rfl⟩
  | cons a rest ih =>
    obtain ⟨ex, hex⟩ := ih fun s hm => h s (List.mem_cons_of_mem a hm)
    cases ha : a.2 with
    | none => exact absurd ha (h a (List.mem_cons_self a rest))
    | some e =>
      refine ⟨e :: ex, ?_⟩
      rw [collectExterns, ha, hex]
      rfl

/-- C6: import resolution accepts only namespace `"env"`, and every import
name must resolve to the memory object (`"memory"`) or a host-table entry:
any import from another namespace, or any name resolving to neither, makes
`run_inner` fail with a reported error before any instance is created
(empty event trace); conversely, when all imports are from `"env"` and
resolvable, resolution succeeds. -/
theorem import_policy {E : Type} (ops : EngineOps E) (funcs : List String)
    (imports : List MImport) (ext : E)
    (k : Instance E → E → Except RunError Unit × E × List Event) :
    ((∃ imp ∈ imports, imp.module ≠ "env" ∨
        ∀ nm, imp.name = some nm → nm ≠ "memory" ∧ nm ∉ funcs) →
      ∃ msg, resolveImports funcs imports = .error msg ∧
        run_inner ops funcs ⟨imports⟩ ext k = (.error (.reported msg), ext, [])) ∧
    ((∀ imp ∈ imports, imp.module = "env" ∧
        ∃ nm, imp.name = some nm ∧ (nm = "memory" ∨ nm ∈ funcs)) →
      ∃ ex, resolveImports funcs imports = .ok ex) := by
  constructor
  · rintro ⟨imp, hmem, hbad⟩
    by_cases hall : ∀ i ∈ imports, i.module = "env"
    · have himp_env : imp.module = "env" := hall imp hmem
      have hname : ∀ nm, imp.name = some nm → nm ≠ "memory" ∧ nm ∉ funcs := by
        rcases hbad with hm | hn
        · exact absurd himp_env hm
        · exact hn
      have hslots := collectEnvSlots_ok imports hall
      have hfill_none : (fillSlot funcs (imp.name, none)).2 = none := by
        cases hnm : imp.name with
        | none => simp [fillSlot, hnm]
        | some nm =>
          obtain ⟨h1, h2⟩ := hname nm hnm
          simp [fillSlot, hnm, h1, h2]
      have hmem2 : fillSlot funcs (imp.name, none) ∈
          (imports.map fun i => (i.name, (none : Option ExternW))).map (fillSlot funcs) :=
        List.mem_map_of_mem _ (List.mem_map_of_mem _ hmem)
      have herr := collectExterns_error _ _ hmem2 hfill_none
      refine ⟨"Missing import", ?_, ?_⟩
      · rw [resolveImports, hslots]
        exact herr
      · have hres : resolveImports funcs imports = .error "Missing import" := by
          rw [resolveImports, hslots]
          exact herr
        simp [run_inner, hres]
    · push_neg at hall
      obtain ⟨i, hi, hbadi⟩ := hall
      have herr := collectEnvSlots_error imports i hi hbadi
      refine ⟨"Non-env imports are not supported", ?_, ?_⟩
      · rw [resolveImports, herr]
        rfl
      · have hres : resolveImports funcs imports =
            .error "Non-env imports are not supported" := by
          rw [resolveImports, herr]
          rfl
        simp [run_inner, hres]
  · intro hgood
    have hall : ∀ i ∈ imports, i.module = "env" := fun i hi => (hgood i hi).1
    have hslots := collectEnvSlots_ok imports hall
    have hfilled : ∀ s ∈ (imports.map fun i => (i.name, (none : Option ExternW))).map
        (fillSlot funcs), s.2 ≠ none := by
      intro s hs
      rw [List.mem_map] at hs
      obtain ⟨slot, hslot, rfl⟩ := hs
      rw [List.mem_map] at hslot
      obtain ⟨i, hi, rfl⟩ := hslot
      obtain ⟨-, nm, hnm, hres⟩ := hgood i hi
      rcases hres with hmemn | hfn
      · subst hmemn
        simp [fillSlot, hnm]
      · by_cases hm : nm = "memory"
        · simp [fillSlot, hnm, hm]
        · simp [fillSlot, hnm, hm, hfn]
    obtain ⟨ex, hex⟩ := collectExterns_ok _ hfilled
    refine ⟨ex, ?_⟩
    rw [resolveImports, hslots]
    exact hex

/-- A small concrete engine over external state `Nat`, used to instantiate
theorems: parsing accepts only the binary `[0]` (as an import-free module),
instantiation always succeeds with an instance whose only export is
`start` (which increments the external state), page setting succeeds. -/
def demoInstance : Instance Nat :=
  ⟨fun nm => if nm = "start" then some (fun _ e => (.ok [], e + 1)) else none⟩

/-- Concrete engine operations for witnesses. -/
def demoOps : EngineOps Nat :=
  { parse := fun b => if b = [0] then some ⟨[]⟩ else none
    instantiate := fun _ _ => .ok demoInstance
    setPages := .ok () }

/-- Witness for C6: a module importing from namespace `"evil"` fails
the import resolution, and `run_inner` reports the error with no instance
created. -/
theorem import_policy_witness :
    ∃ msg, resolveImports [] [⟨"evil", some "x"⟩] = .error msg ∧
      run_inner demoOps [] ⟨[⟨"evil", some "x"⟩]⟩ 0 (entryClosure "start") =
        (.error (.reported msg), 0, []) :=
  (import_policy demoOps [] [⟨"evil", some "x"⟩] 0 (entryClosure "start")).1
    ⟨⟨"evil", some "x"⟩, List.mem_singleton.mpr rfl, .inl (by decide)⟩

/-- C4 counterexample: with an engine whose parser rejects the binary,
`setup_and_run` panics (`.expect("Error creating module")`) instead of
reporting a load error as the call's result. -/
theorem setup_and_run_invalid_binary_counterexample :
    (setup_and_run ⟨fun _ => none, fun _ _ => .error "no", .ok ()⟩ [] () [0] "start").1 =
        .panicked "Error creating module" ∧
      ∀ (r : Except RunError Unit) (e : Unit),
        (setup_and_run ⟨fun _ => none, fun _ _ => .error "no", .ok ()⟩ [] () [0] "start").1 ≠
          .completed r e := by
  constructor
  · rfl
  · intro r e h
    simp [setup_and_run] at h

/-- C4 (amended): whenever the engine cannot parse the binary,
`setup_and_run` panics with `Error creating module` — aborting rather than
returning a result — with no engine event having occurred (execution never
begins). -/
theorem setup_and_run_invalid_binary {E : Type} (ops : EngineOps E)
    (funcs : List String) (ext : E) (binary : List Nat) (entry_point : String)
    (hp : ops.parse binary = none) :
    setup_and_run ops funcs ext binary entry_point =
      (.panicked "Error creating module", none, []) := by
  simp [setup_and_run, hp]

/-- Witness for the amended C4 at a concrete failing parse. -/
theorem setup_and_run_invalid_binary_witness :
    setup_and_run demoOps [] 5 [1] "start" =
      (.panicked "Error creating module", none, []) :=
  setup_and_run_invalid_binary demoOps [] 5 [1] "start" (by decide)

/-- C5: once the binary parses (so the external state is bound into the
deferred cell), `setup_and_run` always returns a `completed` outcome whose
cell component is cleared (`none`) and whose state component is the
external state — unchanged on failures before the entry call, and the
(possibly partially mutated) threaded state on entry-point success or
trap. -/
theorem setup_and_run_always_returns_state {E : Type} (ops : EngineOps E)
    (funcs : List String) (ext : E) (binary : List Nat) (entry_point : String)
    (m : ModuleW) (hp : ops.parse binary = some m) :
    (∀ msg, resolveImports funcs m.imports = .error msg →
      setup_and_run ops funcs ext binary entry_point =
        (.completed (.error (.reported msg)) ext, none, [])) ∧
    (∀ ex msg, resolveImports funcs m.imports = .ok ex →
      ops.instantiate m ex = .error msg →
      setup_and_run ops funcs ext binary entry_point =
        (.completed (.error (.reported msg)) ext, none, [])) ∧
    (∀ ex inst msg, resolveImports funcs m.imports = .ok ex →
      ops.instantiate m ex = .ok inst → ops.setPages = .error msg →
      setup_and_run ops funcs ext binary entry_point =
        (.completed (.error (.reported ("Can't set module memory: " ++ msg))) ext,
          none, [.instanceCreated])) ∧
    (∀ ex inst, resolveImports funcs m.imports = .ok ex →
      ops.instantiate m ex = .ok inst → ops.setPages = .ok () →
      inst.getFunc entry_point = none →
      setup_and_run ops funcs ext binary entry_point =
        (.completed (.error (.reported
            ("failed to find `" ++ entry_point ++ "` function export"))) ext,
          none, [.instanceCreated, .pagesApplied])) ∧
    (∀ ex inst f vs ext2, resolveImports funcs m.imports = .ok ex →
      ops.instantiate m ex = .ok inst → ops.setPages = .ok () →
      inst.getFunc entry_point = some f → f [] ext = (.ok vs, ext2) →
      setup_and_run ops funcs ext binary entry_point =
        (.completed (.ok ()) ext2, none,
          [.instanceCreated, .pagesApplied, .entryInvoked entry_point []])) ∧
    (∀ ex inst f t ext2, resolveImports funcs m.imports = .ok ex →
      ops.instantiate m ex = .ok inst → ops.setPages = .ok () →
      inst.getFunc entry_point = some f → f [] ext = (.error t, ext2) →
      setup_and_run ops funcs ext binary entry_point =
        (.completed (.error (.trapped t)) ext2, none,
          [.instanceCreated, .pagesApplied, .entryInvoked entry_point []])) := by
  refine ⟨?_, ?_, ?_, ?_, ?_, ?_⟩
  · intro msg h1
    simp [setup_and_run, hp, run_inner, h1]
  · intro ex msg h1 h2
    simp [setup_and_run, hp, run_inner, h1, h2]
  · intro ex inst msg h1 h2 h3
    simp [setup_and_run, hp, run_inner, h1, h2, h3]
  · intro ex inst h1 h2 h3 h4
    simp [setup_and_run, hp, run_inner, entryClosure, h1, h2, h3, h4]
  · intro ex inst f vs ext2 h1 h2 h3 h4 h5
    simp [setup_and_run, hp, run_inner, entryClosure, h1, h2, h3, h4, h5]
  · intro ex inst f t ext2 h1 h2 h3 h4 h5
    simp [setup_and_run, hp, run_inner, entryClosure, h1, h2, h3, h4, h5]

/-- Witness for C5: the demo engine runs `start`, which increments the
external state from 5 to 6; the cell comes back cleared and the mutated
state is returned. -/
theorem setup_and_run_always_returns_state_witness :
    setup_and_run demoOps [] 5 [0] "start" =
      (.completed (.ok ()) 6, none,
        [.instanceCreated, .pagesApplied, .entryInvoked "start" []]) :=
  (setup_and_run_always_returns_state demoOps [] 5 [0] "start" ⟨[]⟩ rfl).2.2.2.2.1
    [] demoInstance _ [] 6 rfl rfl rfl rfl rfl

/-- C7: when the instantiated module has no export named `entry_point`,
`setup_and_run` completes with a reported error (not a trap); when the
export exists it is invoked with the empty argument list, its results are
discarded (unit result), and a trap from the call is propagated as the
trap it is. -/
theorem entry_point_handling {E : Type} (ops : EngineOps E)
    (funcs : List String) (ext : E) (binary : List Nat) (entry_point : String)
    (m : ModuleW) (ex : List ExternW) (inst : Instance E)
    (hp : ops.parse binary = some m)
    (hr : resolveImports funcs m.imports = .ok ex)
    (hi : ops.instantiate m ex = .ok inst)
    (hs : ops.setPages = .ok ()) :
    (inst.getFunc entry_point = none →
      setup_and_run ops funcs ext binary entry_point =
        (.completed (.error (.reported
            ("failed to find `" ++ entry_point ++ "` function export"))) ext,
          none, [.instanceCreated, .pagesApplied])) ∧
    (∀ f, inst.getFunc entry_point = some f →
      setup_and_run ops funcs ext binary entry_point =
        (.completed
            (match (f [] ext).1 with
              | .ok _ => .ok ()
              | .error t => .error (.trapped t))
            (f [] ext).2,
          none, [.instanceCreated, .pagesApplied, .entryInvoked entry_point []])) := by
  constructor
  · intro h
    simp [setup_and_run, hp, run_inner, entryClosure, hr, hi, hs, h]
  · intro f h
    cases hcall : f [] ext with
    | mk res ext2 =>
      cases res with
      | ok vs => simp [setup_and_run, hp, run_inner, entryClosure, hr, hi, hs, h, hcall]
      | error t => simp [setup_and_run, hp, run_inner, entryClosure, hr, hi, hs, h, hcall]

/-- Witness for C7: the demo instance has no export `main`, so the call
completes with the reported missing-export error. -/
theorem entry_point_handling_witness :
    setup_and_run demoOps [] 5 [0] "main" =
      (.completed (.error (.reported "failed to find `main` function export")) 5,
        none, [.instanceCreated, .pagesApplied]) :=
  (entry_point_handling demoOps [] 5 [0] "main" ⟨[]⟩ [] demoInstance
      rfl rfl rfl rfl).1 rfl

/-- C8: each of the five host-function wrappers passes success values
through unchanged and converts a domain error's static diagnostic string
into an engine trap carrying that string. -/
theorem host_domain_errors_become_traps {T0 T1 T2 T3 T4 R : Type}
    (f1 : T0 → Except String R) (f2 : T0 → T1 → Except String R)
    (f3 : T0 → T1 → T2 → Except String R)
    (f4 : T0 → T1 → T2 → T3 → Except String R)
    (f5 : T0 → T1 → T2 → T3 → T4 → Except String R)
    (a : T0) (b : T1) (c : T2) (d : T3) (e : T4) :
    (∀ r, f1 a = .ok r → wrap1 f1 a = .ok r) ∧
    (∀ s, f1 a = .error s → wrap1 f1 a = .error (WTrap.new s)) ∧
    (∀ r, f2 a b = .ok r → wrap2 f2 a b = .ok r) ∧
    (∀ s, f2 a b = .error s → wrap2 f2 a b = .error (WTrap.new s)) ∧
    (∀ r, f3 a b c = .ok r → wrap3 f3 a b c = .ok r) ∧
    (∀ s, f3 a b c = .error s → wrap3 f3 a b c = .error (WTrap.new s)) ∧
    (∀ r, f4 a b c d = .ok r → wrap4 f4 a b c d = .ok r) ∧
    (∀ s, f4 a b c d = .error s → wrap4 f4 a b c d = .error (WTrap.new s)) ∧
    (∀ r, f5 a b c d e = .ok r → wrap5 f5 a b c d e = .ok r) ∧
    (∀ s, f5 a b c d e = .error s → wrap5 f5 a b c d e = .error (WTrap.new s)) := by
  refine ⟨?_, ?_, ?_, ?_, ?_, ?_, ?_, ?_, ?_, ?_⟩ <;> intro x h <;>
    simp [wrap1, wrap2, wrap3, wrap4, wrap5, h, Except.mapError]

/-- Witness for C8: a concrete fallible host operation failing with
`"boom"` is wrapped into the trap carrying `"boom"`. -/
theorem host_domain_errors_become_traps_witness :
    wrap1 (fun n : Nat => if n = 0 then Except.error "boom" else Except.ok n) 0 =
      Except.error (WTrap.new "boom") :=
  (host_domain_errors_become_traps
      (fun n : Nat => if n = 0 then Except.error "boom" else Except.ok n)
      (fun _ _ : Nat => Except.ok 0) (fun _ _ _ : Nat => Except.ok 0)
      (fun _ _ _ _ : Nat => Except.ok 0) (fun _ _ _ _ _ : Nat => Except.ok 0)
      0 0 0 0 0).2.1 "boom" rfl

end Backend

namespace PalletExt

/-- The view of a wasm memory the grow handler needs: its current size in
wasm pages and the host address of its backing buffer. -/
structure MemoryM where
  sizePages : Nat
  bufferAddr : Nat
deriving DecidableEq, Repr

/-- `mem.get_buffer_host_addr()` (external `gear_core::memory::Memory`):
`None` exactly when the memory has zero size — per the source's
`unreachable!("Memory size cannot be zero after grow is applied")`. -/
def getBufferHostAddr (mem : MemoryM) : Option Nat :=
  if mem.sizePages = 0 then none else some mem.bufferAddr

/-- The lazy-pages bookkeeping state: the currently protected
(not-yet-materialized) pages, the released (touched) pages, and the cached
base address protections were computed against. -/
structure LazyPagesState where
  protectedPages : List Nat
  releasedPages : List Nat
  baseAddr : Option Nat
deriving DecidableEq, Repr

/-- Modelled from the spec: `gear_lazy_pages_common::remove_lazy_pages_prot`
is not under `src/`; per the spec it is the unconditional teardown that
removes all current lazy-page protections. -/
def remove_lazy_pages_prot (lp : LazyPagesState) : LazyPagesState :=
  { lp with protectedPages := [] }

/-- Modelled from the spec:
`gear_lazy_pages_common::update_lazy_pages_and_protect_again` is not under
`src/`; per the spec, after growth the protections are recomputed for the
full released-plus-newly-allocated page set against the new base address. -/
def update_lazy_pages_and_protect_again (lp : LazyPagesState)
    (_old_mem_addr : Option Nat) (old_mem_size : Nat) (new_mem_addr : Nat)
    (mem : MemoryM) : LazyPagesState :=
  { lp with
      protectedPages :=
        lp.releasedPages ++ List.range' old_mem_size (mem.sizePages - old_mem_size)
      baseAddr := some new_mem_addr }

/-- `LazyGrowHandler` (ext.rs lines 99-102): the data recorded before
growth. -/
structure LazyGrowHandler where
  old_mem_addr : Option Nat
  old_mem_size : Nat
deriving DecidableEq, Repr

/-- `LazyGrowHandler::before_grow_action` (ext.rs lines 105-115): record
the old buffer address, remove all lazy-page protections (the buffer may
relocate), and record the old size. -/
def before_grow_action (mem : MemoryM) (lp : LazyPagesState) :
    LazyGrowHandler × LazyPagesState :=
  let old_mem_addr := getBufferHostAddr mem
  let lp2 := remove_lazy_pages_prot lp
  (⟨old_mem_addr, mem.sizePages⟩, lp2)

/-- `LazyGrowHandler::after_grow_action` (ext.rs lines 117-129): read the
new base address from the (possibly relocated) buffer — `none` models the
`unreachable!` panic for a zero-sized grown memory — and recompute the
protections with the recorded old address/size. -/
def after_grow_action (h : LazyGrowHandler) (mem : MemoryM)
    (lp : LazyPagesState) : Option LazyPagesState :=
  match getBufferHostAddr mem with
  | none => none
  | some new_mem_addr =>
      some (update_lazy_pages_and_protect_again lp h.old_mem_addr
        h.old_mem_size new_mem_addr mem)

/-- Modelled from the spec: `LazyPagesExt::alloc` delegates to
`Ext::alloc_inner::<LazyGrowHandler>` (external `core-processor`), which
brackets the memory-size change between `before_grow_action` and
`after_grow_action`; the growth itself may relocate the buffer to
`newAddr`. -/
def growWithHandler (lp : LazyPagesState) (mem : MemoryM)
    (growPages newAddr : Nat) : Option (LazyPagesState × MemoryM) :=
  let hb := before_grow_action mem lp
  let mem2 : MemoryM := ⟨mem.sizePages + growPages, newAddr⟩
  match after_grow_action hb.1 mem2 hb.2 with
  | none => none
  | some lp3 => some (lp3, mem2)

/-- C9: every bracketed memory growth runs the two-phase handler: before
the size change all current protections are removed and the old base
address and old size are recorded; after it, protections are recomputed
for the released plus newly-allocated pages against the new base address
read from the possibly relocated buffer. -/
theorem grow_two_phase (lp : LazyPagesState) (mem : MemoryM)
    (growPages newAddr : Nat) (hpos : 0 < mem.sizePages + growPages) :
    (before_grow_action mem lp).1 = ⟨getBufferHostAddr mem, mem.sizePages⟩ ∧
    (before_grow_action mem lp).2.protectedPages = [] ∧
    (before_grow_action mem lp).2.releasedPages = lp.releasedPages ∧
    ∃ lp3, growWithHandler lp mem growPages newAddr =
        some (lp3, ⟨mem.sizePages + growPages, newAddr⟩) ∧
      lp3.protectedPages = lp.releasedPages ++ List.range' mem.sizePages growPages ∧
      lp3.releasedPages = lp.releasedPages ∧
      lp3.baseAddr = some newAddr := by
  refine ⟨rfl, rfl, rfl, ?_⟩
  have hne : mem.sizePages + growPages ≠ 0 := Nat.pos_iff_ne_zero.mp hpos
  refine ⟨update_lazy_pages_and_protect_again (remove_lazy_pages_prot lp)
      (getBufferHostAddr mem) mem.sizePages newAddr
      ⟨mem.sizePages + growPages, newAddr⟩, ?_, ?_, rfl, rfl⟩
  · simp only [growWithHandler, after_grow_action, before_grow_action,
      getBufferHostAddr, hne, if_false, ite_false]
  · simp only [update_lazy_pages_and_protect_again, remove_lazy_pages_prot,
      Nat.add_sub_cancel_left]

/-- Witness for C9: growing a 2-page memory by 2 pages with relocation to
address 200 re-protects the released page 1 plus the new pages 2 and 3. -/
theorem grow_two_phase_witness :
    (before_grow_action ⟨2, 100⟩ ⟨[3], [1], some 100⟩).1 =
        ⟨getBufferHostAddr ⟨2, 100⟩, 2⟩ ∧
    (before_grow_action ⟨2, 100⟩ ⟨[3], [1], some 100⟩).2.protectedPages = [] ∧
    (before_grow_action ⟨2, 100⟩ ⟨[3], [1], some 100⟩).2.releasedPages = [1] ∧
    ∃ lp3, growWithHandler ⟨[3], [1], some 100⟩ ⟨2, 100⟩ 2 200 =
        some (lp3, ⟨2 + 2, 200⟩) ∧
      lp3.protectedPages = [1] ++ List.range' 2 2 ∧
      lp3.releasedPages = [1] ∧
      lp3.baseAddr = some 200 :=
  grow_two_phase ⟨[3], [1], some 100⟩ ⟨2, 100⟩ 2 200 (by decide)

/-- The retain closure of `into_ext_info` (ext.rs lines 44-57): the
released pages are filtered down to those whose wasm page lies below the
static-pages boundary or is still in the allocations set.  `toPage` is
the external `GearPage::to_page` conversion. -/
def pages_for_data (toPage : Nat → Nat) (static_pages : Nat)
    (allocations : List Nat) (released : List Nat) : List Nat :=
  released.filter fun p =>
    toPage p < static_pages || allocations.contains (toPage p)

/-- C10: a released page is kept in the extracted accessed-page set iff its
wasm page lies below the static-pages boundary or is currently allocated;
released pages that were freed (neither static nor allocated) are
excluded. -/
theorem into_ext_info_accessed_pages (toPage : Nat → Nat) (static_pages : Nat)
    (allocations : List Nat) (released : List Nat) (p : Nat) :
    p ∈ pages_for_data toPage static_pages allocations released ↔
      p ∈ released ∧ (toPage p < static_pages ∨ toPage p ∈ allocations) := by
  simp [pages_for_data, List.mem_filter]

end PalletExt
